import Mathlib

/-!
Verification of the filewatcher snapshot/diff engine (filewatcher.py).

The program keeps a JSON snapshot mapping each watched file path to its
last-modification timestamp.  `init` scans the tree, filters it, and writes
the snapshot (backing up any previous database file); `check` loads the
snapshot, re-scans, and classifies drift into modified / removed / added.

Timestamps (Python floats from os.path.getmtime) are modelled as rationals;
the filesystem is modelled by oracle functions (`String → Option Rat` for
stat results) and, for `init`, by an explicit path → content map.  Fallible
Python operations are modelled with `Except`/`Option`.
-/

namespace Filewatcher

/-- Parsed JSON values as produced by json.load: numbers, strings and
objects (the fragment that the snapshot format uses). -/
inductive JVal where
  | num (q : Rat)
  | str (s : String)
  | obj (fields : List (String × JVal))

/-- Lookup of a key in a JSON object's field list (Python dict indexing;
json.load never yields duplicate keys, the first binding wins here). -/
def jlookup : List (String × JVal) → String → Option JVal
  | [], _ => none
  | (k, v) :: rest, key => if k = key then some v else jlookup rest key

/-- Python subscript `values[k]` (filewatcher.py line 244): ok on an object
containing `k`, a KeyError on an object lacking `k`, and a TypeError on a
non-object value, as in CPython 2. -/
def pyGetItem (v : JVal) (k : String) : Except String JVal :=
  match v with
  | .obj fields =>
    match jlookup fields k with
    | some x => .ok x
    | none => .error ("KeyError: " ++ k)
  | _ => .error "TypeError: unsubscriptable object"

/-- Python 2 comparison `dt != v` between a float and a loaded JSON value
(line 244): numeric disequality on numbers; on a value of any other type
the comparison is True (Python 2 allows cross-type comparison and values
of distinct types are never equal). -/
def pyNeqNum (dt : Rat) : JVal → Bool
  | .num q => if dt = q then false else true
  | _ => true

/-- One snapshot record: the value stored for a path by init, line 201:
`data[name] = dict(last_modif=dt, last_modif_human=human)`. -/
structure FileRecord where
  last_modif : Rat
  last_modif_human : String
deriving DecidableEq

/-- The JSON object written for one record (init line 201 / json.dump). -/
def recordToJson (r : FileRecord) : JVal :=
  .obj [("last_modif", .num r.last_modif), ("last_modif_human", .str r.last_modif_human)]

/-- The JSON document written for a whole snapshot (init lines 195-201 and
212-213): a top-level object mapping each path to its record object. -/
def snapshotToJson (S : List (String × FileRecord)) : List (String × JVal) :=
  S.map (fun pr => (pr.1, recordToJson pr.2))

/-- Association lookup of a path in a snapshot (Python dict access on the
in-memory form of the data dictionary). -/
def lookupRec (p : String) : List (String × FileRecord) → Option FileRecord
  | [] => none
  | (q, r) :: rest => if q = p then some r else lookupRec p rest

/-- The first loop of check (lines 241-247) over the raw loaded JSON
document: for each snapshot entry, `os.path.getmtime` (the `mtime` oracle;
`none` models an OSError) is attempted first; on failure the path is
appended to removed; on success `values["last_modif"]` is read — a KeyError
or TypeError there is not caught and aborts the whole loop — and the path
is appended to modified when the comparison `dt != values["last_modif"]`
is True.  Returns (modified, removed) in iteration order. -/
def diffLoop (mtime : String → Option Rat) :
    List (String × JVal) → Except String (List String × List String)
  | [] => .ok ([], [])
  | (name, values) :: rest =>
    match mtime name with
    | none =>
      match diffLoop mtime rest with
      | .error e => .error e
      | .ok mr => .ok (mr.1, name :: mr.2)
    | some dt =>
      match pyGetItem values "last_modif" with
      | .error e => .error e
      | .ok v =>
        match diffLoop mtime rest with
        | .error e => .error e
        | .ok mr => .ok (if pyNeqNum dt v then name :: mr.1 else mr.1, mr.2)

/-- The same loop specialised to a well-formed snapshot (every value an
object holding a numeric `last_modif`), where no KeyError can occur: the
pure classification (modified, removed) of the snapshot's keys. -/
def diffPure (mtime : String → Option Rat) :
    List (String × FileRecord) → List String × List String
  | [] => ([], [])
  | (name, r) :: rest =>
    match mtime name with
    | none => ((diffPure mtime rest).1, name :: (diffPure mtime rest).2)
    | some dt =>
      if dt ≠ r.last_modif then (name :: (diffPure mtime rest).1, (diffPure mtime rest).2)
      else diffPure mtime rest

/-- The second loop of check (lines 254-258): walk the freshly scanned
file list (already mask-filtered by helpers.get_files), skip entries on
the ignore list (exact string membership), and report as added every
remaining path that is not a key of the loaded snapshot. -/
def addedLoop (dataKeys : List String) (ignoreList : List String) :
    List String → List String
  | [] => []
  | name :: rest =>
    if name ∈ ignoreList then addedLoop dataKeys ignoreList rest
    else if name ∈ dataKeys then addedLoop dataKeys ignoreList rest
    else name :: addedLoop dataKeys ignoreList rest

/-- The three result sets accumulated by one check call
(self._modified / self._removed / self._added). -/
structure DriftResult where
  modified : List String
  removed : List String
  added : List String
deriving DecidableEq

/-- Observable outcome of one `FileWatcher.check` call: the database file
could not be read (error logged with a reason, 1 returned, lines 236-238);
an exception escaped the diff loop (uncaught, check aborts); or the diff
completed and `summarize` printed the report (line 259). -/
inductive CheckOutcome where
  | loadFailed (msg : String)
  | raised (err : String)
  | report (res : DriftResult)
deriving DecidableEq

/-- `FileWatcher.check` (lines 222-259).  `loadRes` models
`json.load(open(self.config.database))`: `.error ex` is any exception
while opening or parsing (caught at line 236), `.ok data` the loaded
top-level object's fields.  `currFiles` is the fresh scan returned by
`helpers.get_files` and `ignoreList` is `self.config.ignore_list`. -/
def check (loadRes : Except String (List (String × JVal)))
    (mtime : String → Option Rat) (currFiles ignoreList : List String) : CheckOutcome :=
  match loadRes with
  | .error ex => .loadFailed ("Could not read database file, reason: " ++ ex)
  | .ok data =>
    match diffLoop mtime data with
    | .error e => .raised e
    | .ok mr => .report ⟨mr.1, mr.2, addedLoop (data.map Prod.fst) ignoreList currFiles⟩

/-- The DriftResult computed by a completed check over a well-formed
snapshot S. -/
def driftOf (S : List (String × FileRecord)) (mtime : String → Option Rat)
    (currFiles ignoreList : List String) : DriftResult :=
  ⟨(diffPure mtime S).1, (diffPure mtime S).2,
    addedLoop (S.map Prod.fst) ignoreList currFiles⟩

/-- True exactly when `summarize` ran and printed the report
(check line 259; `summarize` is lines 262-273). -/
def summaryPrinted : CheckOutcome → Bool
  | .report _ => true
  | _ => false

/-- Process exit status after `main` ran a check (lines 283-286): check
returning 1 makes main call `sys.exit(1)`; an uncaught exception ends the
interpreter with status 1; a completed check returns None and main falls
through to a normal exit 0. -/
def processExit : CheckOutcome → Nat
  | .loadFailed _ => 1
  | .raised _ => 1
  | .report _ => 0

/-- Decoding of one loaded record object back into a FileRecord, following
the spec's snapshot data model (a record with a numeric `last_modif` and a
string `last_modif_human`); any other shape is malformed. -/
def decodeRecord : JVal → Option FileRecord
  | .obj fields =>
    match jlookup fields "last_modif", jlookup fields "last_modif_human" with
    | some (.num q), some (.str h) => some ⟨q, h⟩
    | _, _ => none
  | _ => none

/-- Decoding of a loaded snapshot document into a snapshot, entry by entry
(the spec's `load` viewed at the parsed-document level). -/
def jsonToSnapshot : List (String × JVal) → Option (List (String × FileRecord))
  | [] => some []
  | (p, v) :: rest =>
    match decodeRecord v, jsonToSnapshot rest with
    | some r, some s => some ((p, r) :: s)
    | _, _ => none

/-- Conversion of an `Except` result to an `Option`, forgetting the error. -/
def toOpt (e : Except String JVal) : Option JVal :=
  match e with
  | .ok v => some v
  | .error _ => none

/-- The inventory built by init (lines 196-201): walk the file list
returned by `helpers.get_files` (already mask-filtered), skip entries on
the ignore list (exact string membership, line 197), and record for every
remaining path its `os.path.getmtime` value (`mtime`, called with no
handler here) and the derived human-readable string (`human`, modelling
`time.strftime` of line 200). -/
def initData (ignoreList : List String) (mtime : String → Rat) (human : Rat → String) :
    List String → List (String × FileRecord)
  | [] => []
  | name :: rest =>
    if name ∈ ignoreList then initData ignoreList mtime human rest
    else (name, ⟨mtime name, human (mtime name)⟩) :: initData ignoreList mtime human rest

/-- Contents a file of the modelled filesystem can hold: pre-existing text,
the `str(data)` repr written to tempfiledata.txt (line 209), or the
`json.dump(data)` serialization written to the database file (line 213). -/
inductive Content where
  | text (s : String)
  | pyRepr (data : List (String × FileRecord))
  | jsonDump (data : List (String × FileRecord))
deriving DecidableEq

/-- The filesystem as seen by init: a map from path to file content. -/
abbrev FS := String → Option Content

/-- Effect of `open(p, 'w')` followed by a write and close. -/
def fsWrite (fs : FS) (p : String) (c : Content) : FS :=
  fun q => if q = p then some c else fs q

/-- Effect of `os.rename(src, dst)` on an existing src. -/
def fsRename (fs : FS) (src dst : String) : FS :=
  fun q => if q = dst then fs src else if q = src then none else fs q

/-- The backup name used by init line 186:
`db_file + ".backup." + str(time.time())`; `nowStr` models the
stringified timestamp of the backup event. -/
def backupName (db nowStr : String) : String :=
  db ++ ".backup." ++ nowStr

/-- The filesystem trace of init (lines 184-213) given the computed data
dictionary: if the database file exists it is first renamed to the backup
name (lines 185-186); then `str(data)` is written to tempfiledata.txt
(lines 205-210); then `json.dump(data)` is written to the database file
(lines 212-213). -/
def initFS (fs : FS) (db nowStr : String) (data : List (String × FileRecord)) : FS :=
  let fs1 := if (fs db).isSome then fsRename fs db (backupName db nowStr) else fs
  let fs2 := fsWrite fs1 "tempfiledata.txt" (.pyRepr data)
  fsWrite fs2 db (.jsonDump data)

/-- `FileWatcher.init` as a filesystem transformer: the backup/write trace
applied to the inventory built from the scanned file list. -/
def initRun (fs : FS) (db nowStr : String) (fileNames ignoreList : List String)
    (mtime : String → Rat) (human : Rat → String) : FS :=
  initFS fs db nowStr (initData ignoreList mtime human fileNames)

/-- Characters allowed inside a Python identifier. -/
def isIdentChar (c : Char) : Bool :=
  c.isAlpha || c.isDigit || c = '_'

/-- Splitting of a source line into Python-style tokens: maximal runs of
identifier characters become one token, spaces separate, and every other
character is a one-character operator token (`...` thus tokenizes as three
`.` tokens, as in the Python 2 tokenizer).  `cur` accumulates the current
identifier run in reverse. -/
def tokenizeAux : List Char → List Char → List String
  | cur, [] => if cur = [] then [] else [String.mk cur.reverse]
  | cur, c :: cs =>
    if isIdentChar c then tokenizeAux (c :: cur) cs
    else if c = ' ' then
      if cur = [] then tokenizeAux [] cs else String.mk cur.reverse :: tokenizeAux [] cs
    else
      if cur = [] then String.mk [c] :: tokenizeAux [] cs
      else String.mk cur.reverse :: String.mk [c] :: tokenizeAux [] cs

/-- Token stream of one source line. -/
def pyTokens (s : String) : List String :=
  tokenizeAux [] s.data

/-- Whether a token is a NAME token (identifier): a letter or underscore
followed by identifier characters. -/
def isNameTok (t : String) : Bool :=
  match t.data with
  | [] => false
  | c :: cs => (c.isAlpha || c = '_') && cs.all isIdentChar

/-- The reserved keywords of Python 2. -/
def python2Keywords : List String :=
  ["and", "as", "assert", "break", "class", "continue", "def", "del", "elif",
   "else", "except", "exec", "finally", "for", "from", "global", "if",
   "import", "in", "is", "lambda", "not", "or", "pass", "print", "raise",
   "return", "try", "while", "with", "yield"]

/-- A NAME token that is not a keyword. -/
def bareName (t : String) : Bool :=
  isNameTok t && !(python2Keywords.contains t)

/-- Whether two adjacent tokens of a stream are both bare (non-keyword)
NAME tokens. -/
def hasAdjacentBareNames : List String → Bool
  | t :: u :: rest => (bareName t && bareName u) || hasAdjacentBareNames (u :: rest)
  | _ => false

/-- Modelled from the Python 2 language grammar (the host language, outside
this repository's source): no production places two NAME tokens adjacently
unless at least one is a reserved keyword, so a statement whose token
stream contains two adjacent bare NAME tokens is a SyntaxError. -/
def py2RejectsStmt (ts : List String) : Bool :=
  hasAdjacentBareNames ts

/-- Line 207 of filewatcher.py, a statement in the body of init. -/
def line207 : String :=
  "TODO TODO TODO ..."

/-- Whether the module compiles: CPython parses the whole file before
executing anything, so the module compiles only if every statement of it
parses; line 207 is one of its statements. -/
def filewatcherModuleParses : Bool :=
  !py2RejectsStmt (pyTokens line207)

/-- What an invocation of init can observe: Python executes no definition
of a module whose compilation failed, so the filesystem transformer runs
only when the module parses. -/
def initObserved (fs : FS) (db nowStr : String) (fileNames ignoreList : List String)
    (mtime : String → Rat) (human : Rat → String) : Option FS :=
  if filewatcherModuleParses then
    some (initRun fs db nowStr fileNames ignoreList mtime human)
  else none

/-- What an invocation of check can observe, under the same compilation
gate as `initObserved`. -/
def checkObserved (loadRes : Except String (List (String × JVal)))
    (mtime : String → Option Rat) (currFiles ignoreList : List String) :
    Option CheckOutcome :=
  if filewatcherModuleParses then some (check loadRes mtime currFiles ignoreList)
  else none

/-- Whether `seg` occurs at the very front of a character list. -/
def segAt : List Char → List Char → Bool
  | [], _ => true
  | _ :: _, [] => false
  | a :: as, b :: bs => a == b && segAt as bs

/-- Whether `seg` occurs contiguously anywhere in a character list. -/
def hasSegment (seg : List Char) : List Char → Bool
  | [] => segAt seg []
  | c :: t => segAt seg (c :: t) || hasSegment seg t

/-- A sample snapshot used to evaluate the claims on concrete inputs. -/
def sampleSnap : List (String × FileRecord) :=
  [("/d/a.txt", ⟨100, "1970-01-01 00:01:40"⟩), ("/d/c.txt", ⟨50, "1970-01-01 00:00:50"⟩)]

/-- A sample stat oracle: /d/a.txt unchanged at 100, /d/b.txt present at 7,
every other path unreadable. -/
def sampleMtime : String → Option Rat :=
  fun p => if p = "/d/a.txt" then some 100 else if p = "/d/b.txt" then some 7 else none

/-- A sample stat oracle under which /d/a.txt has drifted to 200. -/
def driftMtime : String → Option Rat :=
  fun p => if p = "/d/a.txt" then some 200 else none

/-- A successfully loaded snapshot document whose record for /d/a.txt
lacks the last_modif key. -/
def badDoc : List (String × JVal) :=
  [("/d/a.txt", .obj [("last_modif_human", .str "2020-01-01 00:00:00")])]

/-- A stat oracle under which /d/a.txt is readable. -/
def badMtime : String → Option Rat :=
  fun p => if p = "/d/a.txt" then some 5 else none

/-- A sample initial filesystem holding an old database file. -/
def sampleFS : FS :=
  fun p => if p = "/w/db.json" then some (.text "old snapshot") else none

/-! Helper lemmas about the embedded operations. -/

theorem lookupRec_mem {p : String} {r : FileRecord} :
    ∀ {S : List (String × FileRecord)}, lookupRec p S = some r → (p, r) ∈ S := by
  intro S
  induction S with
  | nil => intro h; exact absurd h (by simp [lookupRec])
  | cons qr rest ih =>
    obtain ⟨q, r0⟩ := qr
    intro h
    simp only [lookupRec] at h
    by_cases hq : q = p
    · rw [if_pos hq] at h
      cases h
      cases hq
      exact List.mem_cons_self _ _
    · rw [if_neg hq] at h
      exact List.mem_cons_of_mem _ (ih h)

theorem lookupRec_eq_of_mem {p : String} {r : FileRecord} :
    ∀ {S : List (String × FileRecord)}, (S.map Prod.fst).Nodup → (p, r) ∈ S →
      lookupRec p S = some r := by
  intro S
  induction S with
  | nil => intro _ h; exact absurd h (by simp)
  | cons qr rest ih =>
    obtain ⟨q, r0⟩ := qr
    intro hnd h
    simp only [List.map_cons, List.nodup_cons] at hnd
    rcases List.mem_cons.mp h with heq | hmem
    · cases heq
      simp [lookupRec]
    · have hne : q ≠ p := by
        intro he
        cases he
        exact hnd.1 (List.mem_map.mpr ⟨(p, r), hmem, rfl⟩)
      simp only [lookupRec, if_neg hne]
      exact ih hnd.2 hmem

theorem mem_keys_of_lookupRec {p : String} {r : FileRecord}
    {S : List (String × FileRecord)} (h : lookupRec p S = some r) :
    p ∈ S.map Prod.fst :=
  List.mem_map.mpr ⟨(p, r), lookupRec_mem h, rfl⟩

theorem diffPure_cons_none {mtime : String → Option Rat} {name : String} {r : FileRecord}
    {rest : List (String × FileRecord)} (h : mtime name = none) :
    diffPure mtime ((name, r) :: rest) =
      ((diffPure mtime rest).1, name :: (diffPure mtime rest).2) := by
  simp [diffPure, h]

theorem diffPure_cons_of_ne {mtime : String → Option Rat} {name : String} {r : FileRecord}
    {rest : List (String × FileRecord)} {dt : Rat} (h : mtime name = some dt)
    (hne : dt ≠ r.last_modif) :
    diffPure mtime ((name, r) :: rest) =
      (name :: (diffPure mtime rest).1, (diffPure mtime rest).2) := by
  simp [diffPure, h, hne]

theorem diffPure_cons_of_eq {mtime : String → Option Rat} {name : String} {r : FileRecord}
    {rest : List (String × FileRecord)} {dt : Rat} (h : mtime name = some dt)
    (heq : dt = r.last_modif) :
    diffPure mtime ((name, r) :: rest) = diffPure mtime rest := by
  simp [diffPure, h, heq]

theorem mem_diffPure_removed {mtime : String → Option Rat} {p : String} :
    ∀ {S : List (String × FileRecord)},
      p ∈ (diffPure mtime S).2 ↔ p ∈ S.map Prod.fst ∧ mtime p = none := by
  intro S
  induction S with
  | nil => simp [diffPure]
  | cons nr rest ih =>
    obtain ⟨name, r⟩ := nr
    cases hmt : mtime name with
    | none =>
      rw [diffPure_cons_none hmt]
      simp only [List.map_cons, List.mem_cons]
      constructor
      · rintro (rfl | hmem)
        · exact ⟨Or.inl rfl, hmt⟩
        · obtain ⟨h1, h2⟩ := ih.mp hmem
          exact ⟨Or.inr h1, h2⟩
      · rintro ⟨rfl | h1, h2⟩
        · exact Or.inl rfl
        · exact Or.inr (ih.mpr ⟨h1, h2⟩)
    | some dt =>
      have hstep : p ∈ (diffPure mtime rest).2 ↔
          p ∈ (name :: rest.map Prod.fst) ∧ mtime p = none := by
        rw [ih]
        simp only [List.mem_cons]
        constructor
        · rintro ⟨h1, h2⟩
          exact ⟨Or.inr h1, h2⟩
        · rintro ⟨rfl | h1, h2⟩
          · rw [hmt] at h2
            cases h2
          · exact ⟨h1, h2⟩
      by_cases hne : dt = r.last_modif
      · rw [diffPure_cons_of_eq hmt hne]
        simpa using hstep
      · rw [diffPure_cons_of_ne hmt hne]
        simpa using hstep

theorem mem_diffPure_modified {mtime : String → Option Rat} {p : String} :
    ∀ {S : List (String × FileRecord)},
      p ∈ (diffPure mtime S).1 ↔
        ∃ r dt, (p, r) ∈ S ∧ mtime p = some dt ∧ dt ≠ r.last_modif := by
  intro S
  induction S with
  | nil => simp [diffPure]
  | cons nr rest ih =>
    obtain ⟨name, r⟩ := nr
    cases hmt : mtime name with
    | none =>
      rw [diffPure_cons_none hmt]
      dsimp only
      rw [ih]
      constructor
      · rintro ⟨r1, dt, hmem, hm, hne⟩
        exact ⟨r1, dt, List.mem_cons_of_mem _ hmem, hm, hne⟩
      · rintro ⟨r1, dt, hmem, hm, hne⟩
        rcases List.mem_cons.mp hmem with heq | hmem
        · cases heq
          rw [hmt] at hm
          cases hm
        · exact ⟨r1, dt, hmem, hm, hne⟩
    | some dt =>
      by_cases hne : dt = r.last_modif
      · rw [diffPure_cons_of_eq hmt hne]
        rw [ih]
        constructor
        · rintro ⟨r1, dt1, hmem1, hm1, hne1⟩
          exact ⟨r1, dt1, List.mem_cons_of_mem _ hmem1, hm1, hne1⟩
        · rintro ⟨r1, dt1, hmem1, hm1, hne1⟩
          rcases List.mem_cons.mp hmem1 with heq | hmem1
          · cases heq
            rw [hmt] at hm1
            cases hm1
            exact absurd hne hne1
          · exact ⟨r1, dt1, hmem1, hm1, hne1⟩
      · rw [diffPure_cons_of_ne hmt hne]
        dsimp only
        simp only [List.mem_cons]
        constructor
        · rintro (rfl | hmem)
          · exact ⟨r, dt, Or.inl rfl, hmt, hne⟩
          · obtain ⟨r1, dt1, hmem1, hm1, hne1⟩ := ih.mp hmem
            exact ⟨r1, dt1, Or.inr hmem1, hm1, hne1⟩
        · rintro ⟨r1, dt1, hmem1, hm1, hne1⟩
          rcases hmem1 with heq | hmem1
          · exact Or.inl (congrArg Prod.fst heq)
          · exact Or.inr (ih.mpr ⟨r1, dt1, hmem1, hm1, hne1⟩)

theorem mem_addedLoop {dataKeys ign : List String} {p : String} :
    ∀ {curr : List String},
      p ∈ addedLoop dataKeys ign curr ↔ p ∈ curr ∧ p ∉ ign ∧ p ∉ dataKeys := by
  intro curr
  induction curr with
  | nil => simp [addedLoop]
  | cons name rest ih =>
    simp only [addedLoop]
    by_cases hig : name ∈ ign
    · rw [if_pos hig, ih]
      simp only [List.mem_cons]
      constructor
      · rintro ⟨h1, h2, h3⟩
        exact ⟨Or.inr h1, h2, h3⟩
      · rintro ⟨rfl | h1, h2, h3⟩
        · exact absurd hig h2
        · exact ⟨h1, h2, h3⟩
    · rw [if_neg hig]
      by_cases hk : name ∈ dataKeys
      · rw [if_pos hk, ih]
        simp only [List.mem_cons]
        constructor
        · rintro ⟨h1, h2, h3⟩
          exact ⟨Or.inr h1, h2, h3⟩
        · rintro ⟨rfl | h1, h2, h3⟩
          · exact absurd hk h3
          · exact ⟨h1, h2, h3⟩
      · rw [if_neg hk]
        simp only [List.mem_cons, ih]
        constructor
        · rintro (rfl | ⟨h1, h2, h3⟩)
          · exact ⟨Or.inl rfl, hig, hk⟩
          · exact ⟨Or.inr h1, h2, h3⟩
        · rintro ⟨rfl | h1, h2, h3⟩
          · exact Or.inl rfl
          · exact Or.inr ⟨h1, h2, h3⟩

theorem diffPure_append (mtime : String → Option Rat) :
    ∀ xs ys : List (String × FileRecord),
      diffPure mtime (xs ++ ys) =
        ((diffPure mtime xs).1 ++ (diffPure mtime ys).1,
         (diffPure mtime xs).2 ++ (diffPure mtime ys).2) := by
  intro xs ys
  induction xs with
  | nil => simp [diffPure]
  | cons nr rest ih =>
    obtain ⟨name, r⟩ := nr
    rw [List.cons_append]
    cases hmt : mtime name with
    | none =>
      rw [diffPure_cons_none hmt, diffPure_cons_none hmt, ih]
      simp
    | some dt =>
      by_cases h : dt = r.last_modif
      · rw [diffPure_cons_of_eq hmt h, diffPure_cons_of_eq hmt h, ih]
      · rw [diffPure_cons_of_ne hmt h, diffPure_cons_of_ne hmt h, ih]
        simp

theorem snapshotToJson_keys (S : List (String × FileRecord)) :
    (snapshotToJson S).map Prod.fst = S.map Prod.fst := by
  simp [snapshotToJson, List.map_map, Function.comp]

theorem diffLoop_snapshotToJson (mtime : String → Option Rat) :
    ∀ S : List (String × FileRecord),
      diffLoop mtime (snapshotToJson S) = .ok (diffPure mtime S) := by
  intro S
  induction S with
  | nil => rfl
  | cons nr rest ih =>
    obtain ⟨name, r⟩ := nr
    show diffLoop mtime ((name, recordToJson r) :: snapshotToJson rest) = _
    cases hmt : mtime name with
    | none =>
      rw [diffPure_cons_none hmt]
      simp [diffLoop, hmt, ih]
    | some dt =>
      have hget : pyGetItem (recordToJson r) "last_modif" = .ok (.num r.last_modif) := rfl
      by_cases h : dt = r.last_modif
      · rw [diffPure_cons_of_eq hmt h]
        simp [diffLoop, hmt, hget, ih, pyNeqNum, h]
      · rw [diffPure_cons_of_ne hmt h]
        simp [diffLoop, hmt, hget, ih, pyNeqNum, h]

theorem check_snapshot (S : List (String × FileRecord)) (mtime : String → Option Rat)
    (currFiles ignoreList : List String) :
    check (.ok (snapshotToJson S)) mtime currFiles ignoreList =
      .report (driftOf S mtime currFiles ignoreList) := by
  simp only [check, diffLoop_snapshotToJson, driftOf, snapshotToJson_keys]

theorem segAt_self_append : ∀ s t : List Char, segAt s (s ++ t) = true := by
  intro s t
  induction s with
  | nil => rfl
  | cons a as ih => simp [segAt, ih]

theorem hasSegment_of_segAt {seg : List Char} :
    ∀ {l : List Char}, segAt seg l = true → hasSegment seg l = true := by
  intro l h
  cases l with
  | nil => exact h
  | cons c t => simp [hasSegment, h]

theorem hasSegment_of_append :
    ∀ l1 seg l2 : List Char, hasSegment seg (l1 ++ (seg ++ l2)) = true := by
  intro l1 seg l2
  induction l1 with
  | nil =>
    rw [List.nil_append]
    exact hasSegment_of_segAt (segAt_self_append seg l2)
  | cons c t ih =>
    rw [List.cons_append]
    simp only [hasSegment, List.append_eq]
    rw [ih]
    simp

theorem backup_ne_tempfile (db s : String) : backupName db s ≠ "tempfiledata.txt" := by
  intro h
  have hd : (db ++ ".backup." ++ s).data = "tempfiledata.txt".data :=
    congrArg String.data h
  rw [String.data_append, String.data_append, List.append_assoc] at hd
  have h1 : hasSegment ".backup.".data (db.data ++ (".backup.".data ++ s.data)) = true :=
    hasSegment_of_append _ _ _
  rw [hd] at h1
  exact absurd h1 (by decide)

theorem db_ne_backupName (db s : String) : db ≠ backupName db s := by
  intro h
  have hl : db.length = (db ++ ".backup." ++ s).length := congrArg String.length h
  rw [String.length_append, String.length_append] at hl
  have h8 : ".backup.".length = 8 := rfl
  omega

theorem not_mem_initData_keys {ign : List String} {mtime : String → Rat}
    {human : Rat → String} {p : String} (hig : p ∈ ign) :
    ∀ {fileNames : List String},
      p ∉ (initData ign mtime human fileNames).map Prod.fst := by
  intro fileNames
  induction fileNames with
  | nil => simp [initData]
  | cons name rest ih =>
    simp only [initData]
    by_cases h : name ∈ ign
    · rw [if_pos h]
      exact ih
    · rw [if_neg h]
      simp only [List.map_cons, List.mem_cons]
      rintro (rfl | hmem)
      · exact h hig
      · exact ih hmem

theorem decodeRecord_recordToJson (r : FileRecord) :
    decodeRecord (recordToJson r) = some r := rfl

theorem jsonToSnapshot_snapshotToJson :
    ∀ S : List (String × FileRecord), jsonToSnapshot (snapshotToJson S) = some S := by
  intro S
  induction S with
  | nil => rfl
  | cons pr rest ih =>
    obtain ⟨p, r⟩ := pr
    simp only [snapshotToJson, List.map_cons, jsonToSnapshot] at ih ⊢
    rw [decodeRecord_recordToJson, ih]

theorem jlookup_snapshotToJson (p : String) :
    ∀ S : List (String × FileRecord),
      jlookup (snapshotToJson S) p = (lookupRec p S).map recordToJson := by
  intro S
  induction S with
  | nil => rfl
  | cons qr rest ih =>
    obtain ⟨q, r⟩ := qr
    simp only [snapshotToJson, List.map_cons, jlookup, lookupRec] at ih ⊢
    by_cases h : q = p
    · rw [if_pos h, if_pos h]
      rfl
    · rw [if_neg h, if_neg h]
      exact ih

/-! The claims. -/

/-- Claim C1: for every old snapshot and every current scan, the diff
performed by check produces three pairwise-disjoint path sets (added,
removed, modified), and a path that is a key of the old snapshot, whose
file is readable, and whose current modification timestamp equals the
recorded one appears in none of the three sets. -/
theorem C1_check_partitions (S : List (String × FileRecord)) (mtime : String → Option Rat)
    (currFiles ignoreList : List String) (hnd : (S.map Prod.fst).Nodup) :
    check (.ok (snapshotToJson S)) mtime currFiles ignoreList =
      .report (driftOf S mtime currFiles ignoreList) ∧
    (∀ p, ¬ (p ∈ (driftOf S mtime currFiles ignoreList).modified ∧
             p ∈ (driftOf S mtime currFiles ignoreList).removed)) ∧
    (∀ p, ¬ (p ∈ (driftOf S mtime currFiles ignoreList).modified ∧
             p ∈ (driftOf S mtime currFiles ignoreList).added)) ∧
    (∀ p, ¬ (p ∈ (driftOf S mtime currFiles ignoreList).removed ∧
             p ∈ (driftOf S mtime currFiles ignoreList).added)) ∧
    (∀ p r, lookupRec p S = some r → mtime p = some r.last_modif →
      p ∉ (driftOf S mtime currFiles ignoreList).modified ∧
      p ∉ (driftOf S mtime currFiles ignoreList).removed ∧
      p ∉ (driftOf S mtime currFiles ignoreList).added) := by
  refine ⟨check_snapshot S mtime currFiles ignoreList, ?_, ?_, ?_, ?_⟩
  · rintro p ⟨hm, hr⟩
    obtain ⟨r, dt, hmem, hmt, hne⟩ := mem_diffPure_modified.mp hm
    obtain ⟨hk, hmt2⟩ := mem_diffPure_removed.mp hr
    rw [hmt] at hmt2
    cases hmt2
  · rintro p ⟨hm, ha⟩
    obtain ⟨r, dt, hmem, hmt, hne⟩ := mem_diffPure_modified.mp hm
    obtain ⟨hcur, hig, hk⟩ := mem_addedLoop.mp ha
    exact hk (List.mem_map.mpr ⟨(p, r), hmem, rfl⟩)
  · rintro p ⟨hr, ha⟩
    obtain ⟨hk, _⟩ := mem_diffPure_removed.mp hr
    obtain ⟨_, _, hk2⟩ := mem_addedLoop.mp ha
    exact hk2 hk
  · intro p r hl hmt
    refine ⟨?_, ?_, ?_⟩
    · intro hm
      obtain ⟨r1, dt1, hmem1, hmt1, hne1⟩ := mem_diffPure_modified.mp hm
      have heq := lookupRec_eq_of_mem hnd hmem1
      rw [hl] at heq
      injection heq with heq
      rw [hmt] at hmt1
      injection hmt1 with hmt1
      exact hne1 (by rw [← hmt1, heq])
    · intro hr
      obtain ⟨_, hmt2⟩ := mem_diffPure_removed.mp hr
      rw [hmt] at hmt2
      cases hmt2
    · intro ha
      obtain ⟨_, _, hk⟩ := mem_addedLoop.mp ha
      exact hk (mem_keys_of_lookupRec hl)

/-- Closed instance of C1: on a concrete snapshot and scan, check reports
the computed drift and the unchanged file /d/a.txt lands in no result set. -/
theorem C1_check_partitions_witness :
    check (.ok (snapshotToJson sampleSnap)) sampleMtime ["/d/a.txt", "/d/b.txt"] [] =
      .report (driftOf sampleSnap sampleMtime ["/d/a.txt", "/d/b.txt"] []) ∧
    "/d/a.txt" ∉ (driftOf sampleSnap sampleMtime ["/d/a.txt", "/d/b.txt"] []).modified ∧
    "/d/a.txt" ∉ (driftOf sampleSnap sampleMtime ["/d/a.txt", "/d/b.txt"] []).removed ∧
    "/d/a.txt" ∉ (driftOf sampleSnap sampleMtime ["/d/a.txt", "/d/b.txt"] []).added := by
  have h := C1_check_partitions sampleSnap sampleMtime ["/d/a.txt", "/d/b.txt"] [] (by decide)
  have h5 := h.2.2.2.2 "/d/a.txt" ⟨100, "1970-01-01 00:01:40"⟩ (by decide) (by decide)
  exact ⟨h.1, h5.1, h5.2.1, h5.2.2⟩

/-- Claim C2: the diff is asymmetric with respect to the filter: every key
of the old snapshot is checked regardless of the current mask/ignore
filter (modified and removed do not depend on the scan or the ignore
list), additions are detected only among the scanned paths, and a file
that still exists on disk but is excluded from the current scan is neither
removed nor added, and modified exactly when its timestamp changed. -/
theorem C2_diff_asymmetry (S : List (String × FileRecord)) (mtime : String → Option Rat)
    (curr curr2 ign ign2 : List String) (p : String) (r : FileRecord) (t : Rat)
    (hnd : (S.map Prod.fst).Nodup) (hp : lookupRec p S = some r)
    (ht : mtime p = some t) (hc : p ∉ curr) :
    (driftOf S mtime curr ign).modified = (driftOf S mtime curr2 ign2).modified ∧
    (driftOf S mtime curr ign).removed = (driftOf S mtime curr2 ign2).removed ∧
    p ∉ (driftOf S mtime curr ign).removed ∧
    p ∉ (driftOf S mtime curr ign).added ∧
    (p ∈ (driftOf S mtime curr ign).modified ↔ t ≠ r.last_modif) := by
  refine ⟨rfl, rfl, ?_, ?_, ?_, ?_⟩
  · intro hr2
    obtain ⟨_, hmt⟩ := mem_diffPure_removed.mp hr2
    rw [ht] at hmt
    cases hmt
  · intro ha
    exact hc (mem_addedLoop.mp ha).1
  · intro hm
    obtain ⟨r1, dt1, hmem1, hmt1, hne1⟩ := mem_diffPure_modified.mp hm
    have heq := lookupRec_eq_of_mem hnd hmem1
    rw [hp] at heq
    injection heq with heq
    rw [ht] at hmt1
    injection hmt1 with hmt1
    intro hcontra
    apply hne1
    rw [← hmt1, ← heq]
    exact hcontra
  · intro hne
    exact mem_diffPure_modified.mpr ⟨r, t, lookupRec_mem hp, ht, hne⟩

/-- Closed instance of C2: the snapshot-side sets do not depend on the scan
or ignore list, and an on-disk but unscanned, unchanged file is reported
nowhere. -/
theorem C2_diff_asymmetry_witness :
    (driftOf sampleSnap sampleMtime [] ["/ig"]).modified =
      (driftOf sampleSnap sampleMtime ["/d/x.log"] []).modified ∧
    (driftOf sampleSnap sampleMtime [] ["/ig"]).removed =
      (driftOf sampleSnap sampleMtime ["/d/x.log"] []).removed ∧
    "/d/a.txt" ∉ (driftOf sampleSnap sampleMtime [] ["/ig"]).removed ∧
    "/d/a.txt" ∉ (driftOf sampleSnap sampleMtime [] ["/ig"]).added ∧
    "/d/a.txt" ∉ (driftOf sampleSnap sampleMtime [] ["/ig"]).modified := by
  have h := C2_diff_asymmetry sampleSnap sampleMtime [] ["/d/x.log"] ["/ig"] []
    "/d/a.txt" ⟨100, "1970-01-01 00:01:40"⟩ 100 (by decide) (by decide) (by decide) (by decide)
  exact ⟨h.1, h.2.1, h.2.2.1, h.2.2.2.1, fun hm => (h.2.2.2.2.mp hm) rfl⟩

/-- Claim C3: for every path that is a key of the old snapshot and whose
current modification timestamp is readable, check classifies it as
modified if and only if the current timestamp differs from the recorded
last_modif value under exact numeric equality. -/
theorem C3_modified_iff_exact (S : List (String × FileRecord)) (mtime : String → Option Rat)
    (p : String) (r : FileRecord) (t : Rat) (hnd : (S.map Prod.fst).Nodup)
    (hp : lookupRec p S = some r) (ht : mtime p = some t) :
    p ∈ (diffPure mtime S).1 ↔ t ≠ r.last_modif := by
  constructor
  · intro hm
    obtain ⟨r1, dt1, hmem1, hmt1, hne1⟩ := mem_diffPure_modified.mp hm
    have heq := lookupRec_eq_of_mem hnd hmem1
    rw [hp] at heq
    injection heq with heq
    rw [ht] at hmt1
    injection hmt1 with hmt1
    intro hcontra
    apply hne1
    rw [← hmt1, ← heq]
    exact hcontra
  · intro hne
    exact mem_diffPure_modified.mpr ⟨r, t, lookupRec_mem hp, ht, hne⟩

/-- Closed instance of C3: a file whose timestamp drifted from 100 to 200
is classified as modified. -/
theorem C3_modified_iff_exact_witness :
    "/d/a.txt" ∈ (diffPure driftMtime sampleSnap).1 :=
  (C3_modified_iff_exact sampleSnap driftMtime "/d/a.txt" ⟨100, "1970-01-01 00:01:40"⟩ 200
    (by decide) (by decide) (by decide)).mpr (by decide)

/-- Claim C4: a failure to read a snapshot key's modification timestamp
(the stat oracle returns none) classifies that path as removed; the error
is recovered locally (the loop result is ok, never an exception) and the
diff continues unchanged over the remaining snapshot keys. -/
theorem C4_stat_error_removed (mtime : String → Option Rat)
    (pre post : List (String × FileRecord)) (p : String) (r : FileRecord)
    (h : mtime p = none) :
    diffLoop mtime (snapshotToJson (pre ++ (p, r) :: post)) =
      .ok (diffPure mtime (pre ++ (p, r) :: post)) ∧
    p ∈ (diffPure mtime (pre ++ (p, r) :: post)).2 ∧
    diffPure mtime (pre ++ (p, r) :: post) =
      ((diffPure mtime pre).1 ++ (diffPure mtime post).1,
       (diffPure mtime pre).2 ++ p :: (diffPure mtime post).2) := by
  have hsplit : diffPure mtime (pre ++ (p, r) :: post) =
      ((diffPure mtime pre).1 ++ (diffPure mtime post).1,
       (diffPure mtime pre).2 ++ p :: (diffPure mtime post).2) := by
    rw [diffPure_append, diffPure_cons_none h]
  refine ⟨diffLoop_snapshotToJson mtime _, ?_, hsplit⟩
  rw [hsplit]
  simp

/-- Closed instance of C4: the unreadable /d/c.txt is folded into removed
and the rest of the snapshot is still processed. -/
theorem C4_stat_error_removed_witness :
    diffLoop sampleMtime
        (snapshotToJson ([("/d/a.txt", ⟨100, "1970-01-01 00:01:40"⟩)] ++
          ("/d/c.txt", ⟨50, "1970-01-01 00:00:50"⟩) :: [])) =
      .ok (diffPure sampleMtime ([("/d/a.txt", ⟨100, "1970-01-01 00:01:40"⟩)] ++
          ("/d/c.txt", ⟨50, "1970-01-01 00:00:50"⟩) :: [])) ∧
    "/d/c.txt" ∈ (diffPure sampleMtime ([("/d/a.txt", ⟨100, "1970-01-01 00:01:40"⟩)] ++
          ("/d/c.txt", ⟨50, "1970-01-01 00:00:50"⟩) :: [])).2 ∧
    diffPure sampleMtime ([("/d/a.txt", ⟨100, "1970-01-01 00:01:40"⟩)] ++
          ("/d/c.txt", ⟨50, "1970-01-01 00:00:50"⟩) :: []) =
      ((diffPure sampleMtime [("/d/a.txt", ⟨100, "1970-01-01 00:01:40"⟩)]).1 ++
          (diffPure sampleMtime []).1,
       (diffPure sampleMtime [("/d/a.txt", ⟨100, "1970-01-01 00:01:40"⟩)]).2 ++
          "/d/c.txt" :: (diffPure sampleMtime []).2) :=
  C4_stat_error_removed sampleMtime [("/d/a.txt", ⟨100, "1970-01-01 00:01:40"⟩)] []
    "/d/c.txt" ⟨50, "1970-01-01 00:00:50"⟩ (by decide)

/-- Claim C5: a path on the ignore list (exact string match) is excluded
from init's inventory and from check's added detection even when it was
produced by the mask-filtered scan — ignore takes precedence over any
mask match. -/
theorem C5_ignore_precedence (fileNames ign curr dataKeys : List String)
    (mtime : String → Rat) (human : Rat → String) (p : String)
    (hig : p ∈ ign) (_hm : p ∈ fileNames) (_hc : p ∈ curr) :
    p ∉ (initData ign mtime human fileNames).map Prod.fst ∧
    p ∉ addedLoop dataKeys ign curr := by
  refine ⟨not_mem_initData_keys hig, ?_⟩
  intro ha
  exact (mem_addedLoop.mp ha).2.1 hig

/-- Closed instance of C5: /d/skip.log, scanned by mask *.log but ignored,
appears neither in the inventory nor in added. -/
theorem C5_ignore_precedence_witness :
    "/d/skip.log" ∉ (initData ["/d/skip.log"] (fun _ => 100) (fun _ => "t")
      ["/d/x.log", "/d/skip.log"]).map Prod.fst ∧
    "/d/skip.log" ∉ addedLoop [] ["/d/skip.log"] ["/d/x.log", "/d/skip.log"] :=
  C5_ignore_precedence ["/d/x.log", "/d/skip.log"] ["/d/skip.log"]
    ["/d/x.log", "/d/skip.log"] [] (fun _ => 100) (fun _ => "t") "/d/skip.log"
    (by decide) (by decide) (by decide)

/-- Claim C6: if the snapshot file is missing, unreadable, or malformed
when check runs, check reports the reason, no summary (complete or
partial) is printed, and the process exits with a non-zero status. -/
theorem C6_load_error_fatal (ex : String) (mtime : String → Option Rat)
    (currFiles ignoreList : List String) :
    check (.error ex) mtime currFiles ignoreList =
      .loadFailed ("Could not read database file, reason: " ++ ex) ∧
    summaryPrinted (check (.error ex) mtime currFiles ignoreList) = false ∧
    processExit (check (.error ex) mtime currFiles ignoreList) = 1 :=
  ⟨rfl, rfl, rfl⟩

/-- Claim C7: when init runs and a file already exists at the database
path, it is renamed to path.backup.timestamp before the new snapshot is
written, so the original content is preserved under the backup name and
the database path holds the new snapshot. -/
theorem C7_backup_before_write (fs : FS) (db nowStr : String)
    (fileNames ignoreList : List String) (mtime : String → Rat) (human : Rat → String)
    (c : Content) (h : fs db = some c) :
    initRun fs db nowStr fileNames ignoreList mtime human (backupName db nowStr) = some c ∧
    initRun fs db nowStr fileNames ignoreList mtime human db =
      some (.jsonDump (initData ignoreList mtime human fileNames)) := by
  have h1 : backupName db nowStr ≠ db := fun he => db_ne_backupName db nowStr he.symm
  have h2 : backupName db nowStr ≠ "tempfiledata.txt" := backup_ne_tempfile db nowStr
  constructor
  · simp [initRun, initFS, fsWrite, fsRename, h, h1, h2]
  · simp [initRun, initFS, fsWrite, fsRename, h]

/-- Closed instance of C7: a concrete old database file survives under the
backup name and the database path holds the fresh snapshot. -/
theorem C7_backup_before_write_witness :
    initRun sampleFS "/w/db.json" "1111.5" [] [] (fun _ => 0) (fun _ => "t")
      (backupName "/w/db.json" "1111.5") = some (.text "old snapshot") ∧
    initRun sampleFS "/w/db.json" "1111.5" [] [] (fun _ => 0) (fun _ => "t")
      "/w/db.json" = some (.jsonDump (initData [] (fun _ => 0) (fun _ => "t") [])) :=
  C7_backup_before_write sampleFS "/w/db.json" "1111.5" [] [] (fun _ => 0) (fun _ => "t")
    (.text "old snapshot") (by decide)

/-- Claim C8: loading a snapshot document saved from S yields a snapshot
with the identical path keys and identical numeric last_modif for each
key: decoding inverts encoding, the key lists agree, and the per-key
last_modif lookups performed by check agree with S's records. -/
theorem C8_snapshot_roundtrip (S : List (String × FileRecord)) :
    jsonToSnapshot (snapshotToJson S) = some S ∧
    (snapshotToJson S).map Prod.fst = S.map Prod.fst ∧
    (∀ p, jlookup (snapshotToJson S) p = (lookupRec p S).map recordToJson) ∧
    (∀ p, (jlookup (snapshotToJson S) p).bind (fun v => toOpt (pyGetItem v "last_modif")) =
      (lookupRec p S).map (fun r => JVal.num r.last_modif)) := by
  refine ⟨jsonToSnapshot_snapshotToJson S, snapshotToJson_keys S,
    fun p => jlookup_snapshotToJson p S, ?_⟩
  intro p
  rw [jlookup_snapshotToJson p S]
  cases lookupRec p S with
  | none => rfl
  | some r => rfl

/-- Claim C9: line 207 of init's body tokenizes to bare adjacent NAME
tokens, which Python 2's grammar rejects, so the module never parses and
neither init nor check can ever execute — in particular init can never
write a snapshot file. -/
theorem C9_module_never_runs :
    pyTokens line207 = ["TODO", "TODO", "TODO", ".", ".", "."] ∧
    py2RejectsStmt (pyTokens line207) = true ∧
    filewatcherModuleParses = false ∧
    (∀ (fs : FS) (db nowStr : String) (fileNames ignoreList : List String)
       (mtime : String → Rat) (human : Rat → String),
      initObserved fs db nowStr fileNames ignoreList mtime human = none) ∧
    (∀ (loadRes : Except String (List (String × JVal))) (mtime : String → Option Rat)
       (currFiles ignoreList : List String),
      checkObserved loadRes mtime currFiles ignoreList = none) := by
  have hp : filewatcherModuleParses = false := by decide
  refine ⟨by decide, by decide, hp, ?_, ?_⟩
  · intro fs db nowStr fileNames ignoreList mtime human
    simp [initObserved, hp]
  · intro loadRes mtime currFiles ignoreList
    simp [checkObserved, hp]

/-- Claim C10: on a successfully loaded snapshot whose record lacks the
last_modif key, and whose file's timestamp is readable, check raises an
uncaught KeyError: the outcome is neither a report (so the path is not
classified) nor a load failure. -/
theorem C10_keyerror_uncaught :
    check (.ok badDoc) badMtime [] [] = .raised "KeyError: last_modif" ∧
    (∀ res : DriftResult, check (.ok badDoc) badMtime [] [] ≠ .report res) ∧
    (∀ msg : String, check (.ok badDoc) badMtime [] [] ≠ .loadFailed msg) := by
  have h : check (.ok badDoc) badMtime [] [] = .raised "KeyError: last_modif" := rfl
  refine ⟨h, ?_, ?_⟩
  · intro res hres
    rw [h] at hres
    cases hres
  · intro msg hmsg
    rw [h] at hmsg
    cases hmsg

end Filewatcher
